import Mathlib

/-!
Verification development for the embedded HTML template language service
(`src/html-template-language-service.ts`).  The TypeScript source is
shallowly embedded: pure helper functions become Lean functions, the
single-slot completions cache becomes a structure with explicit state
passing, JS numbers for offsets become `Int`, nullable values become
`Option`, and the external language-service engines (HTML completion,
CSS completion, HTML hover, styled-template quick info, HTML formatter,
region classification) are parameters bundled in an `Engines` structure.
-/

/-- A (line, character) pair, as in `ts.LineAndCharacter`. -/
structure LineAndCharacter where
  line : Nat
  character : Nat
deriving DecidableEq, Repr

/-- The template context handed in by the host: fragment text, file name
and the coordinate bridge (`toPosition` / `toOffset`). -/
structure TemplateContext where
  fileName : String
  text : String
  toPosition : Int → LineAndCharacter
  toOffset : LineAndCharacter → Int

/-- Model of `arePositionsEqual`: component-wise equality. -/
def arePositionsEqual (left right : LineAndCharacter) : Bool :=
  left.line == right.line && left.character == right.character

/-- Completion item kinds of the embedded sub-language
(`vscode.CompletionItemKind`). -/
inductive CompletionItemKind where
  | Text | Method | Function | Constructor | Field | Variable | Class
  | Interface | Module | Property | Unit | Value | Enum | Keyword
  | Snippet | Color | File | Reference | Folder | EnumMember | Constant
  | Struct | Event | Operator | TypeParameter
deriving DecidableEq, Repr

/-- The host kinds used by this layer (`ts.ScriptElementKind`). -/
inductive ScriptElementKind where
  | unknown | memberFunctionElement | functionElement
  | constructorImplementationElement | variableElement | classElement
  | interfaceElement | moduleElement | memberVariableElement
  | constElement | enumElement | keyword | alias | string
deriving DecidableEq, Repr

/-- Model of `string | MarkupContent` as fed to `toDisplayParts`. -/
inductive StrOrMarkup where
  | str (s : String)
  | markup (value : String)
deriving DecidableEq, Repr

/-- Model of `ts.SymbolDisplayPart`. -/
structure SymbolDisplayPart where
  kind : String
  text : String
deriving DecidableEq, Repr

/-- Model of `vscode.CompletionItem` (the fields this layer reads). -/
structure CompletionItem where
  label : String
  kind : Option CompletionItemKind
  detail : Option String
  documentation : Option StrOrMarkup
deriving DecidableEq, Repr

/-- Model of `vscode.CompletionList`. -/
structure CompletionList where
  isIncomplete : Bool
  items : List CompletionItem
deriving DecidableEq, Repr

/-- The module-level `emptyCompletionList` constant. -/
def emptyCompletionList : CompletionList :=
  { isIncomplete := false, items := [] }

/-- The four private fields of class `CompletionsCache`; a fresh instance
has every field `undefined`. -/
structure CompletionsCache where
  cachedCompletionsFile : Option String
  cachedCompletionsPosition : Option LineAndCharacter
  cachedCompletionsContent : Option String
  completions : Option CompletionList
deriving DecidableEq, Repr

/-- Model of `new CompletionsCache()`: all fields undefined. -/
def initCache : CompletionsCache := ⟨none, none, none, none⟩

/-- The truthiness-plus-equality test of the stored position against the
queried one (`this._cachedCompletionsPosition && arePositionsEqual ...`). -/
def storedPositionMatches (stored : Option LineAndCharacter)
    (position : LineAndCharacter) : Bool :=
  match stored with
  | some p => arePositionsEqual position p
  | none => false

/-- Model of `CompletionsCache.getCached`: returns the stored list exactly when a
list is stored and all three keys (file name, position, text) match. -/
def getCached (cache : CompletionsCache) (context : TemplateContext)
    (position : LineAndCharacter) : Option CompletionList :=
  match cache.completions with
  | some comps =>
    if cache.cachedCompletionsFile == some context.fileName
        && storedPositionMatches cache.cachedCompletionsPosition position
        && cache.cachedCompletionsContent == some context.text then
      some comps
    else
      none
  | none => none

/-- Model of `CompletionsCache.updateCached`: overwrites all four fields. -/
def updateCached (_cache : CompletionsCache) (context : TemplateContext)
    (position : LineAndCharacter) (completions : CompletionList) :
    CompletionsCache :=
  { cachedCompletionsFile := some context.fileName
    cachedCompletionsPosition := some position
    cachedCompletionsContent := some context.text
    completions := some completions }

/-- Executable model of the JS `String.prototype.split` with a
single-character test (here the regex `/n/g`): the list of parts between
separator characters; splitting the empty string yields one empty part. -/
def jsSplit (p : Char → Bool) : List Char → List (List Char)
  | [] => [[]]
  | c :: rest =>
    if p c then
      [] :: jsSplit p rest
    else
      match jsSplit p rest with
      | part :: parts => (c :: part) :: parts
      | [] => [[c]]

/-- A virtual text document (`vscode.TextDocument` literal built by the
factories); `getText` is the captured contents. -/
structure VirtualDoc where
  uri : String
  languageId : String
  version : Nat
  getText : String
  positionAt : Int → LineAndCharacter
  offsetAt : LineAndCharacter → Int
  lineCount : Nat

/-- Model of `createVirtualDocument`: html-tagged view over the fragment text.
The `lineCount` mirrors the source exactly: it splits the contents on the
letter `n` (the regex is `/n/g`) and adds one. -/
def createVirtualDocument (context : TemplateContext) : VirtualDoc :=
  { uri := "untitled://embedded.html"
    languageId := "html"
    version := 1
    getText := context.text
    positionAt := context.toPosition
    offsetAt := context.toOffset
    lineCount := (jsSplit (fun c => c = 'n') context.text.data).length + 1 }

/-- Model of `createCssVirtualDocument`: css-tagged view, same `lineCount` split. -/
def createCssVirtualDocument (context : TemplateContext) : VirtualDoc :=
  { uri := "untitled://embedded.css"
    languageId := "css"
    version := 1
    getText := context.text
    positionAt := context.toPosition
    offsetAt := context.toOffset
    lineCount := (jsSplit (fun c => c = 'n') context.text.data).length + 1 }

/-- A sub-language range (`vscode.Range`); `stop` models the `end` field
(`end` is reserved in Lean). -/
structure VsRange where
  start : LineAndCharacter
  stop : LineAndCharacter
deriving DecidableEq, Repr

/-- Model of `vscode.TextEdit`. -/
structure TextEdit where
  range : VsRange
  newText : String

/-- Hover contents: `string | MarkedString | MarkedString[]` flattened into
a tagged variant (`markup` carries the `.value` of a block). -/
inductive MarkedContents where
  | str (s : String)
  | markup (value : String)
  | arr (l : List MarkedContents)

/-- Model of `vscode.Hover`. -/
structure Hover where
  contents : MarkedContents
  range : Option VsRange

/-- Model of `ts.TextSpan` (offsets are JS numbers, modelled as `Int`). -/
structure TextSpan where
  start : Int
  length : Int
deriving DecidableEq, Repr

/-- Model of `ts.TextChange`. -/
structure TextChange where
  span : TextSpan
  newText : String
deriving DecidableEq, Repr

/-- Model of `ts.QuickInfo`. -/
structure QuickInfo where
  kind : ScriptElementKind
  kindModifiers : String
  textSpan : TextSpan
  displayParts : List SymbolDisplayPart
  documentation : List SymbolDisplayPart
  tags : List String
deriving DecidableEq, Repr

/-- Model of `ts.CompletionEntry` (fields this layer writes). -/
structure CompletionEntry where
  name : String
  kindModifiers : String
  kind : ScriptElementKind
  sortText : String
deriving DecidableEq, Repr

/-- Model of `ts.CompletionInfo`. -/
structure CompletionInfo where
  isGlobalCompletion : Bool
  isMemberCompletion : Bool
  isNewIdentifierLocation : Bool
  entries : List CompletionEntry
deriving DecidableEq, Repr

/-- Model of `ts.CompletionEntryDetails` (fields this layer writes, in source
order). -/
structure CompletionEntryDetails where
  name : String
  kind : ScriptElementKind
  kindModifiers : String
  tags : List String
  displayParts : List SymbolDisplayPart
  documentation : List SymbolDisplayPart
deriving DecidableEq, Repr

/-- Editor settings consumed by formatting. -/
structure EditorSettings where
  tabSize : Option Int
  convertTabsToSpaces : Option Bool

/-- The fixed formatting options record built by
`getFormattingEditsForRange`. -/
structure HtmlFormatOptions where
  tabSize : Option Int
  insertSpaces : Bool
  wrapLineLength : Nat
  unformatted : String
  contentUnformatted : String
  indentInnerHtml : Bool
  preserveNewLines : Bool
  maxPreserveNewLines : Option Nat
  indentHandlebars : Bool
  endWithNewline : Bool
  extraLiners : String
  wrapAttributes : String

/-- The `format.enabled` part of the plugin configuration. -/
structure FormatConfiguration where
  enabled : Bool

/-- Model of `TsHtmlPluginConfiguration` (the part this file reads). -/
structure TsHtmlPluginConfiguration where
  format : FormatConfiguration

/-- The external engines this layer delegates to.  `lang` models
`getDocumentRegions(...).getLanguageAtPosition`: a deterministic function
of the document text and the queried position, returning a language id
string ("html", "css", or anything else for the none case). -/
structure Engines where
  lang : String → LineAndCharacter → String
  htmlDoComplete : VirtualDoc → LineAndCharacter → Option CompletionList
  cssDoComplete : VirtualDoc → LineAndCharacter → Option CompletionList
  htmlDoHover : VirtualDoc → LineAndCharacter → Option Hover
  styledQuickInfo : TemplateContext → LineAndCharacter → Option QuickInfo
  format : VirtualDoc → VsRange → HtmlFormatOptions → List TextEdit

/-- The switch body of `getCompletionItems` (the uncached computation). -/
def computeCompletions (E : Engines) (context : TemplateContext)
    (position : LineAndCharacter) : CompletionList :=
  let htmlDoc := createVirtualDocument context
  let languageId := E.lang htmlDoc.getText position
  if languageId = "html" then
    (E.htmlDoComplete htmlDoc position).getD emptyCompletionList
  else if languageId = "css" then
    let cssDoc := createCssVirtualDocument context
    (E.cssDoComplete cssDoc position).getD emptyCompletionList
  else
    emptyCompletionList

/-- Model of `getCompletionItems`: consult the cache, otherwise compute and store.
Returns the list together with the updated cache state. -/
def getCompletionItems (E : Engines) (cache : CompletionsCache)
    (context : TemplateContext) (position : LineAndCharacter) :
    CompletionList × CompletionsCache :=
  match getCached cache context position with
  | some cached => (cached, cache)
  | none =>
    let completions := computeCompletions E context position
    (completions, updateCached cache context position completions)

/-- ASCII case-insensitive letter match (the cleanup regex has the `i`
flag). -/
def ciEq (c target : Char) : Bool := c.toLower == target

/-- Whitespace as matched by the `\s` class (the characters relevant to
this codebase). -/
def isWs (c : Char) : Bool :=
  c == ' ' || c == '\t' || c == '\n' || c == '\r' || c == '\x0b' || c == '\x0c'

/-- Worker for `value.replace(/(<style>\n)\s+/gi, '')`: scans the
character list left to right.  When `skipping` is set the scanner is
inside the whitespace run of a match and consumes whitespace characters
(the greedy `\s+`); otherwise it tries to match `<style>`
(case-insensitive) followed by a newline and at least one whitespace
character at the current position — on a match the tag and newline are
dropped and the scanner enters skipping mode, on a mismatch the current
character is kept and scanning advances by one. -/
def removeStyleScan : Bool → List Char → List Char
  | _, [] => []
  | skipping, c0 :: c1 :: c2 :: c3 :: c4 :: c5 :: c6 :: c7 :: rest =>
    if skipping && isWs c0 then
      removeStyleScan true (c1 :: c2 :: c3 :: c4 :: c5 :: c6 :: c7 :: rest)
    else if c0 = '<' && ciEq c1 's' && ciEq c2 't' && ciEq c3 'y' && ciEq c4 'l'
        && ciEq c5 'e' && c6 = '>' && c7 = '\n'
        && (match rest.head? with | some c => isWs c | none => false) then
      removeStyleScan true rest
    else
      c0 :: removeStyleScan false (c1 :: c2 :: c3 :: c4 :: c5 :: c6 :: c7 :: rest)
  | skipping, c0 :: rest =>
    if skipping && isWs c0 then
      removeStyleScan true rest
    else
      c0 :: removeStyleScan false rest

/-- Whether the text contains an occurrence of the cleanup pattern
(`<style>`, case-insensitive, then a newline, then at least one
whitespace character). -/
def hasStyleMatch : List Char → Bool
  | c0 :: c1 :: c2 :: c3 :: c4 :: c5 :: c6 :: c7 :: rest =>
    if c0 = '<' && ciEq c1 's' && ciEq c2 't' && ciEq c3 'y' && ciEq c4 'l'
        && ciEq c5 'e' && c6 = '>' && c7 = '\n'
        && (match rest.head? with | some c => isWs c | none => false) then
      true
    else
      hasStyleMatch (c1 :: c2 :: c3 :: c4 :: c5 :: c6 :: c7 :: rest)
  | _ :: rest => hasStyleMatch rest
  | [] => false

/-- The `removeStyleDeclaration` rewrite applied to a CSS hover value. -/
def removeStyleDeclaration (s : String) : String :=
  ⟨removeStyleScan false s.data⟩

mutual

/-- The recursive `convertPart` closure inside `translateHover`: returns
the (header, docs) display-part lists accumulated for one content value.
Plain strings go to the docs list; block values go to the header list,
with the CSS cleanup applied exactly when the language id is "css". -/
def convertPart (languageId : String) :
    MarkedContents → List SymbolDisplayPart × List SymbolDisplayPart
  | .str s => ([], [⟨"unknown", s⟩])
  | .markup v =>
    if languageId = "css" then ([⟨"unknown", removeStyleDeclaration v⟩], [])
    else ([⟨"unknown", v⟩], [])
  | .arr l => convertParts languageId l

/-- Model of `convertPart` folded over an array of content blocks (the
`hoverContents.forEach(convertPart)` case). -/
def convertParts (languageId : String) :
    List MarkedContents → List SymbolDisplayPart × List SymbolDisplayPart
  | [] => ([], [])
  | c :: rest =>
    let p := convertPart languageId c
    let q := convertParts languageId rest
    (p.1 ++ q.1, p.2 ++ q.2)

end

/-- Model of `translateHover`: build the quick-info record for a hover. -/
def translateHover (hover : Hover) (position : LineAndCharacter)
    (context : TemplateContext) (languageId : String) : QuickInfo :=
  let parts := convertPart languageId hover.contents
  let start : Int :=
    context.toOffset (match hover.range with
      | some r => r.start
      | none => position)
  { kind := ScriptElementKind.string
    kindModifiers := ""
    textSpan :=
      { start := start
        length :=
          match hover.range with
          | some r => context.toOffset r.stop - start
          | none => 1 }
    displayParts := parts.1
    documentation := parts.2
    tags := [] }

/-- Model of `getQuickInfoAtPosition`: css positions are delegated whole to the
styled-template service; html positions go through the HTML hover engine
and `translateHover`; anything else yields no hover. -/
def getQuickInfoAtPosition (E : Engines) (context : TemplateContext)
    (position : LineAndCharacter) : Option QuickInfo :=
  let htmlDoc := createVirtualDocument context
  let languageId := E.lang htmlDoc.getText position
  if languageId = "css" then
    E.styledQuickInfo context position
  else
    let hover :=
      if languageId = "html" then E.htmlDoHover htmlDoc position else none
    match hover with
    | some h => some (translateHover h position context languageId)
    | none => none

/-- The completion-item kind lookup table
(`translateionCompletionItemKind`, name kept from the source). -/
def translateionCompletionItemKind (kind : CompletionItemKind) :
    ScriptElementKind :=
  match kind with
  | .Method => .memberFunctionElement
  | .Function => .functionElement
  | .Constructor => .constructorImplementationElement
  | .Field => .variableElement
  | .Variable => .variableElement
  | .Class => .classElement
  | .Interface => .interfaceElement
  | .Module => .moduleElement
  | .Property => .memberVariableElement
  | .Unit => .constElement
  | .Value => .constElement
  | .Enum => .enumElement
  | .Keyword => .keyword
  | .Color => .constElement
  | .Reference => .alias
  | .File => .moduleElement
  | _ => .unknown

/-- Model of `toDisplayParts`: empty for `undefined` or the empty string (both
falsy); a markup block is always truthy, even with an empty value. -/
def toDisplayParts (text : Option StrOrMarkup) : List SymbolDisplayPart :=
  match text with
  | none => []
  | some (.str s) => if s = "" then [] else [⟨"text", s⟩]
  | some (.markup v) => [⟨"text", v⟩]

/-- Model of `translateCompetionEntry` (name kept from the source). -/
def translateCompetionEntry (item : CompletionItem) : CompletionEntry :=
  { name := item.label
    kindModifiers := ""
    kind :=
      match item.kind with
      | some k => translateionCompletionItemKind k
      | none => .unknown
    sortText := "0" }

/-- Model of `translateCompletionItemsToCompletionInfo`. -/
def translateCompletionItemsToCompletionInfo (items : CompletionList) :
    CompletionInfo :=
  { isGlobalCompletion := false
    isMemberCompletion := false
    isNewIdentifierLocation := false
    entries := items.items.map translateCompetionEntry }

/-- Model of `translateCompletionItemsToCompletionEntryDetails`: the detail record
for a found item always carries the fixed kind-modifier "declare". -/
def translateCompletionItemsToCompletionEntryDetails
    (item : CompletionItem) : CompletionEntryDetails :=
  { name := item.label
    kind :=
      match item.kind with
      | some k => translateionCompletionItemKind k
      | none => .unknown
    kindModifiers := "declare"
    tags := []
    displayParts := toDisplayParts (item.detail.map .str)
    documentation := toDisplayParts item.documentation }

/-- Model of `getCompletionsAtPosition`: the host-facing completion info plus the
updated cache state. -/
def getCompletionsAtPosition (E : Engines) (cache : CompletionsCache)
    (context : TemplateContext) (position : LineAndCharacter) :
    CompletionInfo × CompletionsCache :=
  let r := getCompletionItems E cache context position
  (translateCompletionItemsToCompletionInfo r.1, r.2)

/-- Model of `getCompletionEntryDetails`: look the name up in the computed list;
synthesize a minimal unknown record when absent. -/
def getCompletionEntryDetails (E : Engines) (cache : CompletionsCache)
    (context : TemplateContext) (position : LineAndCharacter)
    (name : String) : CompletionEntryDetails :=
  let items := (getCompletionItems E cache context position).1.items
  match items.find? (fun x => x.label == name) with
  | none =>
    { name := name
      kind := .unknown
      kindModifiers := ""
      tags := []
      displayParts := toDisplayParts (some (.str name))
      documentation := [] }
  | some item => translateCompletionItemsToCompletionEntryDetails item

/-- Scanner shared by the two trim computations: walks a character list
while it is whitespace, returning the index just past the last newline
seen inside that whitespace run (0 when the run has no newline). -/
def wsNewlineScan : List Char → Nat → Nat → Nat
  | [], _, best => best
  | c :: rest, i, best =>
    if isWs c then
      wsNewlineScan rest (i + 1) (if c = '\n' then i + 1 else best)
    else
      best

/-- Length of the match of `/^\s*\n/` against the text (0 when there is
no match): the whitespace prefix up to and including its last newline. -/
def leadingTrimLen (s : String) : Nat :=
  wsNewlineScan s.data 0 0

/-- Length of the leftmost match of `/\n\s*$/` against the text (0 when
there is no match): from the first newline of the trailing whitespace run
to the end of the text. -/
def trailingTrimLen (s : String) : Nat :=
  wsNewlineScan s.data.reverse 0 0

/-- Model of `toVsRange`. -/
def toVsRange (context : TemplateContext) (start stop : Int) : VsRange :=
  { start := context.toPosition start
    stop := context.toPosition stop }

/-- Model of `toTsSpan`. -/
def toTsSpan (context : TemplateContext) (range : VsRange) : TextSpan :=
  let editStart := context.toOffset range.start
  let editEnd := context.toOffset range.stop
  { start := editStart, length := editEnd - editStart }

/-- The fixed options record handed to the HTML formatter. -/
def mkHtmlFormatOptions (settings : EditorSettings) : HtmlFormatOptions :=
  { tabSize := settings.tabSize
    insertSpaces := settings.convertTabsToSpaces.getD false
    wrapLineLength := 120
    unformatted := ""
    contentUnformatted := "pre,code,textarea"
    indentInnerHtml := false
    preserveNewLines := true
    maxPreserveNewLines := none
    indentHandlebars := false
    endWithNewline := false
    extraLiners := "head, body, /html"
    wrapAttributes := "auto" }

/-- Model of `getFormattingEditsForRange`: bail out when formatting is disabled,
shrink the requested range by the leading/trailing whitespace matches,
return no edits when the shrunk range is empty or inverted, otherwise
run the formatter over the shrunk range and translate its edits. -/
def getFormattingEditsForRange (E : Engines)
    (configuration : TsHtmlPluginConfiguration)
    (context : TemplateContext) (startOff endOff : Int)
    (settings : EditorSettings) : List TextChange :=
  if !configuration.format.enabled then
    []
  else
    let doc := createVirtualDocument context
    let start2 := startOff + (leadingTrimLen context.text : Int)
    let end2 := endOff - (trailingTrimLen context.text : Int)
    if end2 ≤ start2 then
      []
    else
      let range := toVsRange context start2 end2
      let edits := E.format doc range (mkHtmlFormatOptions settings)
      edits.map (fun vsedit =>
        { span := toTsSpan context vsedit.range, newText := vsedit.newText })

/-- The cache states reachable by a service instance: the fresh cache of
the constructor, and anything produced by a completion computation. -/
inductive ReachableCache (E : Engines) : CompletionsCache → Prop where
  | init : ReachableCache E initCache
  | step (c : CompletionsCache) (context : TemplateContext)
      (position : LineAndCharacter) :
      ReachableCache E c →
      ReachableCache E (getCompletionItems E c context position).2

/-! Concrete fixtures used by witnesses. -/

/-- A context over a single-line fragment with linear coordinates. -/
def linearCtx (name text : String) : TemplateContext :=
  { fileName := name
    text := text
    toPosition := fun o => ⟨0, o.toNat⟩
    toOffset := fun p => (p.character : Int) }

/-- A sentinel completion list. -/
def testList : CompletionList :=
  { isIncomplete := true
    items := [{ label := "div", kind := some .Property, detail := none,
                documentation := none }] }

/-- A concrete context. -/
def ctxA : TemplateContext := linearCtx "main.ts" "<div></div>"

/-- Unpacking a cache hit: a hit means a list is stored and every key
field stores exactly the queried key. -/
theorem getCached_eq_some (cache : CompletionsCache)
    (ctx : TemplateContext) (pos : LineAndCharacter)
    (cached : CompletionList) (h : getCached cache ctx pos = some cached) :
    cache.completions = some cached ∧
    cache.cachedCompletionsFile = some ctx.fileName ∧
    cache.cachedCompletionsPosition = some pos ∧
    cache.cachedCompletionsContent = some ctx.text := by
  unfold getCached at h
  split at h
  case h_2 => exact absurd h (by simp)
  case h_1 comps hc =>
    split at h
    case isFalse => exact absurd h (by simp)
    case isTrue hcond =>
      cases h
      simp only [Bool.and_eq_true, beq_iff_eq] at hcond
      obtain ⟨⟨hf, hp⟩, ht⟩ := hcond
      refine ⟨hc, hf, ?_, ht⟩
      unfold storedPositionMatches at hp
      split at hp
      case h_2 => exact absurd hp (by simp)
      case h_1 p hsp =>
        unfold arePositionsEqual at hp
        simp only [Bool.and_eq_true, beq_iff_eq] at hp
        obtain ⟨h1, h2⟩ := hp
        cases p
        cases pos
        simp_all

/-- C1: the completion cache is a single-slot cache with exact equality
on all three keys.  After `updateCached` stores a list, `getCached`
returns it exactly when the queried file name, position (line and
character) and text all equal the stored ones; any mismatch yields a
full miss (`none`); `updateCached` overwrites every field regardless of
the prior cache state; and a consecutive computation that misses
recomputes and then stores its keys and list via `updateCached`. -/
theorem cache_exact_key_contract :
    ∀ (old old2 : CompletionsCache) (ctx ctx2 : TemplateContext)
      (pos pos2 : LineAndCharacter) (comps : CompletionList),
      (getCached (updateCached old ctx pos comps) ctx2 pos2 = some comps ↔
        (ctx2.fileName = ctx.fileName ∧ pos2.line = pos.line ∧
          pos2.character = pos.character ∧ ctx2.text = ctx.text)) ∧
      (¬(ctx2.fileName = ctx.fileName ∧ pos2.line = pos.line ∧
          pos2.character = pos.character ∧ ctx2.text = ctx.text) →
        getCached (updateCached old ctx pos comps) ctx2 pos2 = none) ∧
      updateCached old ctx pos comps = updateCached old2 ctx pos comps ∧
      (∀ (E : Engines) (cache : CompletionsCache),
        getCached cache ctx pos = none →
        getCompletionItems E cache ctx pos =
          (computeCompletions E ctx pos,
            updateCached cache ctx pos (computeCompletions E ctx pos))) := by
  intro old old2 ctx ctx2 pos pos2 comps
  refine ⟨?_, ?_, rfl, ?_⟩
  · simp only [getCached, updateCached, storedPositionMatches,
      arePositionsEqual, Bool.and_eq_true, beq_iff_eq, Option.some.injEq]
    constructor
    · intro h
      split at h
      case isTrue hcond =>
        obtain ⟨⟨hf, hp⟩, ht⟩ := hcond
        exact ⟨hf.symm, hp.1, hp.2, ht.symm⟩
      case isFalse => exact absurd h (by simp)
    · intro ⟨hf, hl, hc, ht⟩
      rw [if_pos ⟨⟨hf.symm, hl, hc⟩, ht.symm⟩]
  · intro hne
    simp only [getCached, updateCached, storedPositionMatches,
      arePositionsEqual, Bool.and_eq_true, beq_iff_eq, Option.some.injEq]
    split
    case isTrue hcond =>
      obtain ⟨⟨hf, hp⟩, ht⟩ := hcond
      exact absurd ⟨hf.symm, hp.1, hp.2, ht.symm⟩ hne
    case isFalse => rfl
  · intro E cache hmiss
    unfold getCompletionItems
    rw [hmiss]

/-- Witness for C1 at concrete inputs: an identical consecutive query
hits the cache. -/
theorem cache_exact_key_contract_witness :
    getCached (updateCached initCache ctxA ⟨0, 3⟩ testList) ctxA ⟨0, 3⟩ =
      some testList :=
  ((cache_exact_key_contract initCache initCache ctxA ctxA
      ⟨0, 3⟩ ⟨0, 3⟩ testList).1).mpr ⟨rfl, rfl, rfl, rfl⟩

/-- Cache invariant: in every reachable cache state, a stored list whose
stored text and position classify to neither "html" nor "css" is the
empty completion list. -/
theorem reachable_cache_none_empty (E : Engines) :
    ∀ (c : CompletionsCache), ReachableCache E c →
      ∀ (t : String) (p : LineAndCharacter) (l : CompletionList),
        c.cachedCompletionsContent = some t →
        c.cachedCompletionsPosition = some p →
        c.completions = some l →
        E.lang t p ≠ "html" → E.lang t p ≠ "css" →
        l = emptyCompletionList := by
  intro c hr
  induction hr with
  | init => intro t p l ht hp hl _ _; exact absurd hl (by simp [initCache])
  | step c ctx pos hr ih =>
    intro t p l ht hp hl hh hc
    unfold getCompletionItems at ht hp hl
    cases hg : getCached c ctx pos with
    | some cached =>
      rw [hg] at ht hp hl
      exact ih t p l ht hp hl hh hc
    | none =>
      rw [hg] at ht hp hl
      simp only [updateCached, Option.some.injEq] at ht hp hl
      subst ht hp hl
      unfold computeCompletions
      rw [if_neg (by exact hh), if_neg (by exact hc)]

/-- C2: for every fragment and position whose region classification is
neither "html" nor "css", the completions operation (from any cache
state the service can be in) returns the explicit empty completion list
— `isIncomplete` false and zero items — and the host-facing completion
info therefore has zero entries.  The operation is total, so it never
returns an absent result. -/
theorem none_region_empty_completions :
    ∀ (E : Engines) (cache : CompletionsCache) (ctx : TemplateContext)
      (pos : LineAndCharacter), ReachableCache E cache →
      E.lang ctx.text pos ≠ "html" → E.lang ctx.text pos ≠ "css" →
      (getCompletionItems E cache ctx pos).1 = emptyCompletionList ∧
      (getCompletionItems E cache ctx pos).1.isIncomplete = false ∧
      (getCompletionItems E cache ctx pos).1.items = [] ∧
      (getCompletionsAtPosition E cache ctx pos).1.entries = [] := by
  intro E cache ctx pos hr hh hc
  have hmain : (getCompletionItems E cache ctx pos).1 = emptyCompletionList := by
    unfold getCompletionItems
    cases hg : getCached cache ctx pos with
    | some cached =>
      obtain ⟨hl, _, hp, ht⟩ := getCached_eq_some cache ctx pos cached hg
      exact reachable_cache_none_empty E cache hr ctx.text pos cached ht hp hl hh hc
    | none =>
      unfold computeCompletions
      rw [if_neg (by exact hh), if_neg (by exact hc)]
  refine ⟨hmain, ?_, ?_, ?_⟩
  · rw [hmain]; rfl
  · rw [hmain]; rfl
  · show (translateCompletionItemsToCompletionInfo
        (getCompletionItems E cache ctx pos).1).entries = []
    rw [hmain]; rfl

/-- A set of engines whose classifier reports an unembedded language. -/
def noneEngines : Engines :=
  { lang := fun _ _ => "plaintext"
    htmlDoComplete := fun _ _ => some testList
    cssDoComplete := fun _ _ => some testList
    htmlDoHover := fun _ _ => none
    styledQuickInfo := fun _ _ => none
    format := fun _ r _ => [{ range := r, newText := "" }] }

/-- Witness for C2 at concrete inputs: the fresh cache, a fragment whose
classification is "plaintext". -/
theorem none_region_empty_completions_witness :
    (getCompletionItems noneEngines initCache ctxA ⟨0, 0⟩).1 =
      emptyCompletionList ∧
    (getCompletionItems noneEngines initCache ctxA ⟨0, 0⟩).1.isIncomplete
      = false ∧
    (getCompletionItems noneEngines initCache ctxA ⟨0, 0⟩).1.items = [] ∧
    (getCompletionsAtPosition noneEngines initCache ctxA ⟨0, 0⟩).1.entries
      = [] :=
  none_region_empty_completions noneEngines initCache ctxA ⟨0, 0⟩
    ReachableCache.init (by decide) (by decide)

/-- C3: the completion-item-kind translation is total (it is a total
Lean function over the whole enumeration, so it cannot throw) and
follows the fixed table; every kind outside the table, including snippet
and text, maps to the unknown host kind. -/
theorem kind_translation_table :
    translateionCompletionItemKind .Method = .memberFunctionElement ∧
    translateionCompletionItemKind .Function = .functionElement ∧
    translateionCompletionItemKind .Constructor
      = .constructorImplementationElement ∧
    translateionCompletionItemKind .Field = .variableElement ∧
    translateionCompletionItemKind .Variable = .variableElement ∧
    translateionCompletionItemKind .Class = .classElement ∧
    translateionCompletionItemKind .Interface = .interfaceElement ∧
    translateionCompletionItemKind .Module = .moduleElement ∧
    translateionCompletionItemKind .File = .moduleElement ∧
    translateionCompletionItemKind .Property = .memberVariableElement ∧
    translateionCompletionItemKind .Unit = .constElement ∧
    translateionCompletionItemKind .Value = .constElement ∧
    translateionCompletionItemKind .Color = .constElement ∧
    translateionCompletionItemKind .Enum = .enumElement ∧
    translateionCompletionItemKind .Keyword = .keyword ∧
    translateionCompletionItemKind .Reference = .alias ∧
    translateionCompletionItemKind .Snippet = .unknown ∧
    translateionCompletionItemKind .Text = .unknown ∧
    translateionCompletionItemKind .Folder = .unknown ∧
    translateionCompletionItemKind .EnumMember = .unknown ∧
    translateionCompletionItemKind .Constant = .unknown ∧
    translateionCompletionItemKind .Struct = .unknown ∧
    translateionCompletionItemKind .Event = .unknown ∧
    translateionCompletionItemKind .Operator = .unknown ∧
    translateionCompletionItemKind .TypeParameter = .unknown := by
  decide

/-- Follows the claim wording (not the source): the amount a range start
would move to exclude exactly one leading all-whitespace line — the
length of the first line including its newline when that line is all
whitespace, and 0 otherwise. -/
def claimedSingleLeadingLineLen : List Char → Nat
  | [] => 0
  | c :: rest =>
    if c = '\n' then 1
    else if isWs c then
      let r := claimedSingleLeadingLineLen rest
      if r = 0 then 0 else r + 1
    else 0

/-- Configuration with formatting enabled. -/
def enabledCfg : TsHtmlPluginConfiguration := ⟨⟨true⟩⟩

/-- Default editor settings. -/
def defaultSettings : EditorSettings := ⟨none, none⟩

/-- Counterexample to C4 as stated: on the fragment "\n\nx" the code
excludes the whole two-newline leading whitespace run (offset 2), not a
single leading all-whitespace line (offset 1); the formatter (echoed by
the test engines) is invoked at offset 2. -/
theorem format_trim_counterexample :
    leadingTrimLen "\n\nx" = 2 ∧
    claimedSingleLeadingLineLen "\n\nx".data = 1 ∧
    leadingTrimLen "\n\nx" ≠ claimedSingleLeadingLineLen "\n\nx".data ∧
    getFormattingEditsForRange noneEngines enabledCfg
        (linearCtx "main.ts" "\n\nx") 0 3 defaultSettings =
      [{ span := { start := 2, length := 1 }, newText := "" }] := by
  decide

/-- C4 (amended): `getFormattingEditsForRange` shrinks the requested
range by the whole leading whitespace run up to and including its last
newline and by the trailing whitespace run from its first newline (which
is exactly one all-whitespace line only when at most one blank line is
present); it returns no edits when the shrunk range is empty or
inverted; and on the concrete fragment "\n  <div></div>\n  " the
exclusions are the leading newline (1 character) and the trailing
newline plus two spaces (3 characters). -/
theorem format_range_trimming :
    ∀ (E : Engines) (cfg : TsHtmlPluginConfiguration)
      (ctx : TemplateContext) (startOff endOff : Int)
      (settings : EditorSettings),
      (endOff - (trailingTrimLen ctx.text : Int) ≤
          startOff + (leadingTrimLen ctx.text : Int) →
        getFormattingEditsForRange E cfg ctx startOff endOff settings = []) ∧
      (cfg.format.enabled = true →
        startOff + (leadingTrimLen ctx.text : Int) <
          endOff - (trailingTrimLen ctx.text : Int) →
        getFormattingEditsForRange E cfg ctx startOff endOff settings =
          (E.format (createVirtualDocument ctx)
              (toVsRange ctx (startOff + (leadingTrimLen ctx.text : Int))
                (endOff - (trailingTrimLen ctx.text : Int)))
              (mkHtmlFormatOptions settings)).map
            (fun vsedit => { span := toTsSpan ctx vsedit.range,
                             newText := vsedit.newText })) ∧
      leadingTrimLen "\n  <div></div>\n  " = 1 ∧
      trailingTrimLen "\n  <div></div>\n  " = 3 := by
  intro E cfg ctx startOff endOff settings
  refine ⟨?_, ?_, by decide, by decide⟩
  · intro h
    by_cases he : cfg.format.enabled
    · simp only [getFormattingEditsForRange, he, Bool.not_true,
        Bool.false_eq_true, if_false]
      rw [if_pos h]
    · simp [getFormattingEditsForRange, he]
  · intro he hlt
    simp only [getFormattingEditsForRange, he, Bool.not_true,
      Bool.false_eq_true, if_false]
    rw [if_neg (not_le.mpr hlt)]

/-- The concrete fragment of the C4 spec sentence. -/
def divCtx : TemplateContext := linearCtx "main.ts" "\n  <div></div>\n  "

/-- Witness for C4 at concrete inputs: formatting the whole 17-character
fragment runs the formatter over offsets 1 to 14 (the echoed edit spans
exactly that shrunk range). -/
theorem format_range_trimming_witness :
    getFormattingEditsForRange noneEngines enabledCfg divCtx 0 17
        defaultSettings =
      [{ span := { start := 1, length := 13 }, newText := "" }] := by
  have h := (format_range_trimming noneEngines enabledCfg divCtx 0 17
    defaultSettings).2.1 rfl (by decide)
  rw [h]
  decide

/-- A text with no occurrence of the cleanup pattern passes through the
rewrite unchanged. -/
theorem removeStyleScan_id_of_no_match :
    ∀ (l : List Char), hasStyleMatch l = false → removeStyleScan false l = l := by
  intro l
  induction l using hasStyleMatch.induct with
  | case1 c0 c1 c2 c3 c4 c5 c6 c7 rest hcond =>
    intro h
    rw [hasStyleMatch.eq_1, if_pos hcond] at h
    exact absurd h (by simp)
  | case2 c0 c1 c2 c3 c4 c5 c6 c7 rest hcond ih =>
    intro h
    rw [hasStyleMatch.eq_1, if_neg hcond] at h
    rw [removeStyleScan.eq_2, if_neg (by simp), if_neg hcond, ih h]
  | case3 c0 rest hshort ih =>
    intro h
    rw [hasStyleMatch.eq_2 _ _ hshort] at h
    rw [removeStyleScan.eq_3 _ _ _ hshort, if_neg (by simp), ih h]
  | case4 => intro _; rfl

/-- The same pass-through at the level of hover values. -/
theorem removeStyleDeclaration_id_of_no_match (v : String)
    (h : hasStyleMatch v.data = false) : removeStyleDeclaration v = v := by
  unfold removeStyleDeclaration
  rw [removeStyleScan_id_of_no_match v.data h]

/-- Counterexample to C5 as stated: the cleanup is a global, unanchored
replace, so a CSS hover value that does not start with the artifact
prefix but contains it mid-string is still changed. -/
theorem hover_cleanup_counterexample :
    removeStyleDeclaration "a<style>\n bc" = "abc" ∧
    "<style>".data.isPrefixOf "a<style>\n bc".data = false ∧
    removeStyleDeclaration "a<style>\n bc" ≠ "a<style>\n bc" ∧
    (translateHover ⟨.markup "a<style>\n bc", none⟩ ⟨0, 0⟩ ctxA
        "css").displayParts = [⟨"unknown", "abc"⟩] := by
  refine ⟨by decide, by decide, by decide, ?_⟩
  show (convertPart "css" (.markup "a<style>\n bc")).1 = _
  rw [convertPart, if_pos rfl]
  have h : removeStyleDeclaration "a<style>\n bc" = "abc" := by decide
  rw [h]

/-- C5 (amended): the hover translator applies the CSS cosmetic cleanup
exactly when the active sub-language is "css"; the artifact value
"<style>" + newline + indentation + "color: red;" is rewritten to
"color: red;"; a CSS hover value containing no occurrence of the
pattern anywhere (the cleanup is unanchored, so mere absence of a
leading prefix is not enough) is passed through unchanged; and a hover
translated with language "html" is never passed through the cleanup even
if its value contains the pattern. -/
theorem hover_css_cleanup :
    ∀ (v : String) (ctx : TemplateContext) (pos : LineAndCharacter)
      (r : Option VsRange),
      (translateHover ⟨.markup "<style>\n    color: red;", r⟩ pos ctx
          "css").displayParts = [⟨"unknown", "color: red;"⟩] ∧
      (hasStyleMatch v.data = false →
        (translateHover ⟨.markup v, r⟩ pos ctx "css").displayParts
          = [⟨"unknown", v⟩]) ∧
      (translateHover ⟨.markup v, r⟩ pos ctx "html").displayParts
        = [⟨"unknown", v⟩] ∧
      convertPart "css" (.markup v)
        = ([⟨"unknown", removeStyleDeclaration v⟩], []) := by
  intro v ctx pos r
  have hcss : ∀ (w : String), convertPart "css" (.markup w)
      = ([⟨"unknown", removeStyleDeclaration w⟩], []) := by
    intro w
    rw [convertPart, if_pos rfl]
  refine ⟨?_, ?_, ?_, hcss v⟩
  · show (convertPart "css" (.markup "<style>\n    color: red;")).1 = _
    rw [hcss]
    have h : removeStyleDeclaration "<style>\n    color: red;"
        = "color: red;" := by decide
    rw [h]
  · intro hno
    show (convertPart "css" (.markup v)).1 = _
    rw [hcss, removeStyleDeclaration_id_of_no_match v hno]
  · show (convertPart "html" (.markup v)).1 = _
    rw [convertPart, if_neg (by decide)]

/-- Witness for C5 at a concrete input: a pattern-free CSS hover value
is passed through unchanged. -/
theorem hover_css_cleanup_witness :
    (translateHover ⟨.markup "color: blue;", none⟩ ⟨0, 0⟩ ctxA
        "css").displayParts = [⟨"unknown", "color: blue;"⟩] :=
  (hover_css_cleanup "color: blue;" ctxA ⟨0, 0⟩ none).2.1 (by decide)

/-- C6: `getCompletionEntryDetails` is a total function (it cannot throw
and always returns a record); when the requested name is absent from the
computed completion list it synthesizes a record carrying that name, the
unknown host kind, empty kind-modifiers and empty documentation. -/
theorem entry_details_fallback :
    ∀ (E : Engines) (cache : CompletionsCache) (ctx : TemplateContext)
      (pos : LineAndCharacter) (name : String),
      (getCompletionItems E cache ctx pos).1.items.find?
          (fun x => x.label == name) = none →
      getCompletionEntryDetails E cache ctx pos name =
        { name := name, kind := .unknown, kindModifiers := "", tags := [],
          displayParts := toDisplayParts (some (.str name)),
          documentation := [] } := by
  intro E cache ctx pos name h
  simp only [getCompletionEntryDetails]
  rw [h]

/-- Witness for C6 at concrete inputs: a name absent from the (empty)
computed list yields the synthesized unknown record. -/
theorem entry_details_fallback_witness :
    getCompletionEntryDetails noneEngines initCache ctxA ⟨0, 0⟩ "span" =
      { name := "span", kind := .unknown, kindModifiers := "", tags := [],
        displayParts := [⟨"text", "span"⟩], documentation := [] } := by
  have h := entry_details_fallback noneEngines initCache ctxA ⟨0, 0⟩ "span"
    (by decide)
  rw [h]
  decide

/-- C7: the translated quick-info text span starts at the host offset of
the hover range start (or of the query position when no range is
reported); its length is the offset difference of the range ends, or
exactly 1 when no range is reported. -/
theorem hover_text_span :
    ∀ (h : Hover) (pos : LineAndCharacter) (ctx : TemplateContext)
      (languageId : String),
      (h.range = none →
        (translateHover h pos ctx languageId).textSpan
          = ⟨ctx.toOffset pos, 1⟩) ∧
      (∀ r, h.range = some r →
        (translateHover h pos ctx languageId).textSpan
          = ⟨ctx.toOffset r.start,
              ctx.toOffset r.stop - ctx.toOffset r.start⟩) := by
  intro h pos ctx languageId
  constructor
  · intro hr
    unfold translateHover
    rw [hr]
  · intro r hr
    unfold translateHover
    rw [hr]

/-- Witness for C7 at concrete inputs: a hover reporting no range is
anchored at the query position with length 1. -/
theorem hover_text_span_witness :
    (translateHover ⟨.str "div element", none⟩ ⟨0, 2⟩ ctxA
        "html").textSpan = ⟨2, 1⟩ :=
  ((hover_text_span ⟨.str "div element", none⟩ ⟨0, 2⟩ ctxA "html").1
    rfl).trans (by decide)

/-- C10: the kind-modifiers of a details record distinguish found from
absent names: a found item yields the fixed string "declare", an absent
name yields the empty string. -/
theorem details_kind_modifiers_distinguish :
    ∀ (E : Engines) (cache : CompletionsCache) (ctx : TemplateContext)
      (pos : LineAndCharacter) (name : String),
      (∀ item, (getCompletionItems E cache ctx pos).1.items.find?
          (fun x => x.label == name) = some item →
        (getCompletionEntryDetails E cache ctx pos name).kindModifiers
          = "declare") ∧
      ((getCompletionItems E cache ctx pos).1.items.find?
          (fun x => x.label == name) = none →
        (getCompletionEntryDetails E cache ctx pos name).kindModifiers
          = "") := by
  intro E cache ctx pos name
  constructor
  · intro item h
    simp only [getCompletionEntryDetails]
    rw [h]
    rfl
  · intro h
    simp only [getCompletionEntryDetails]
    rw [h]

/-- Engines whose classifier reports "html" and whose HTML completion
engine returns the sentinel list. -/
def htmlEngines : Engines :=
  { lang := fun _ _ => "html"
    htmlDoComplete := fun _ _ => some testList
    cssDoComplete := fun _ _ => none
    htmlDoHover := fun _ _ => none
    styledQuickInfo := fun _ _ => none
    format := fun _ r _ => [{ range := r, newText := "" }] }

/-- Witness for C10 at concrete inputs: the name "div" is found in the
computed list and its details carry the kind-modifier "declare". -/
theorem details_kind_modifiers_distinguish_witness :
    (getCompletionEntryDetails htmlEngines initCache ctxA ⟨0, 1⟩
        "div").kindModifiers = "declare" :=
  (details_kind_modifiers_distinguish htmlEngines initCache ctxA ⟨0, 1⟩
      "div").1
    { label := "div", kind := some .Property, detail := none,
      documentation := none }
    (by decide)

/-- Lemma: `jsSplit` always yields at least one part. -/
theorem jsSplit_ne_nil (p : Char → Bool) (l : List Char) :
    jsSplit p l ≠ [] := by
  cases l with
  | nil => simp [jsSplit]
  | cons c rest =>
    rw [jsSplit]
    split
    · simp
    · split
      · simp
      · simp

/-- The number of parts is the number of separator characters plus one. -/
theorem jsSplit_length (p : Char → Bool) (l : List Char) :
    (jsSplit p l).length = l.countP p + 1 := by
  induction l with
  | nil => rfl
  | cons c rest ih =>
    rw [jsSplit]
    by_cases hp : p c
    · rw [if_pos hp]
      simp [List.countP_cons, hp, ih]
    · rw [if_neg hp]
      cases hj : jsSplit p rest with
      | nil => exact absurd hj (jsSplit_ne_nil p rest)
      | cons part parts =>
        rw [hj] at ih
        simp only [List.length_cons] at ih ⊢
        simp [List.countP_cons, hp, ih]

/-- Follows the claim wording (not the source): a line count obtained by
splitting the text on the literal two-character escape sequence
backslash-n; occurrences of that two-character sequence plus one gives
the part count, plus one more gives the claimed line count. -/
def escSeqCount : List Char → Nat
  | '\\' :: 'n' :: rest => escSeqCount rest + 1
  | _ :: rest => escSeqCount rest
  | [] => 0

/-- Follows the claim wording (not the source): the line count a split
on the literal backslash-n sequence would produce. -/
def claimedEscapeSplitLineCount (s : String) : Nat :=
  escSeqCount s.data + 1 + 1

/-- Counterexample to C8 as stated: the source splits on the single
letter "n" (regex `/n/g`), not on a two-character escape sequence, and
the result is not approximately 1: for the fragment "banana" (which
contains neither a real newline nor a backslash) the virtual document
reports 4 lines, while a split on the literal backslash-n sequence would
report 2. -/
theorem line_count_counterexample :
    (createVirtualDocument (linearCtx "main.ts" "banana")).lineCount = 4 ∧
    claimedEscapeSplitLineCount "banana" = 2 ∧
    (createVirtualDocument (linearCtx "main.ts" "banana")).lineCount
      ≠ claimedEscapeSplitLineCount "banana" := by
  decide

/-- C8 (amended): the advisory `lineCount` of both virtual-document
factories splits on the single letter "n" rather than on a newline: it
always equals the number of letter-"n" characters in the fragment plus
two, so real newline characters are never counted ("a\nb\nc" with three
real lines reports 2) and each letter "n" inflates the count ("banana"
reports 4). -/
theorem line_count_splits_letter_n :
    (∀ (ctx : TemplateContext),
      (createVirtualDocument ctx).lineCount
        = ctx.text.data.countP (fun c => c = 'n') + 2 ∧
      (createCssVirtualDocument ctx).lineCount
        = ctx.text.data.countP (fun c => c = 'n') + 2) ∧
    (createVirtualDocument (linearCtx "main.ts" "a\nb\nc")).lineCount = 2 ∧
    (createVirtualDocument (linearCtx "main.ts" "banana")).lineCount = 4 := by
  refine ⟨?_, by decide, by decide⟩
  intro ctx
  constructor
  · show (jsSplit (fun c => c = 'n') ctx.text.data).length + 1 = _
    rw [jsSplit_length]
  · show (jsSplit (fun c => c = 'n') ctx.text.data).length + 1 = _
    rw [jsSplit_length]

/-- C9: the public quick-info operation never reaches the CSS cleanup
branch of the hover translator: a "css" position is delegated whole to
the styled-template service before any translation, a position that is
neither "html" nor "css" yields no hover, and the only hovers this layer
translates itself go through `translateHover` with language id "html" —
whose markup branch passes values through unchanged — so every
quick-info record built by this layer has kind `string` and empty
kind-modifiers. -/
theorem quickinfo_never_css_cleanup :
    ∀ (E : Engines) (ctx : TemplateContext) (pos : LineAndCharacter),
      (E.lang ctx.text pos = "css" →
        getQuickInfoAtPosition E ctx pos = E.styledQuickInfo ctx pos) ∧
      (E.lang ctx.text pos ≠ "html" → E.lang ctx.text pos ≠ "css" →
        getQuickInfoAtPosition E ctx pos = none) ∧
      (∀ h, E.lang ctx.text pos = "html" →
        E.htmlDoHover (createVirtualDocument ctx) pos = some h →
        getQuickInfoAtPosition E ctx pos
          = some (translateHover h pos ctx "html") ∧
        (translateHover h pos ctx "html").kind = ScriptElementKind.string ∧
        (translateHover h pos ctx "html").kindModifiers = "") ∧
      (∀ v, convertPart "html" (.markup v) = ([⟨"unknown", v⟩], [])) := by
  intro E ctx pos
  refine ⟨?_, ?_, ?_, ?_⟩
  · intro hcss
    simp only [getQuickInfoAtPosition]
    rw [if_pos (by exact hcss)]
  · intro hh hc
    simp only [getQuickInfoAtPosition]
    rw [if_neg (by exact hc), if_neg (by exact hh)]
  · intro h hh hhover
    refine ⟨?_, rfl, rfl⟩
    simp only [getQuickInfoAtPosition]
    rw [if_neg (by rw [show (createVirtualDocument ctx).getText = ctx.text
          from rfl, hh]; decide),
      if_pos (by exact hh), hhover]
    rw [show E.lang (createVirtualDocument ctx).getText pos = "html"
      from hh]
  · intro v
    rw [convertPart, if_neg (by decide)]

/-- A sentinel quick-info record as the styled-template service would
return it. -/
def sentinelQuickInfo : QuickInfo :=
  { kind := .unknown, kindModifiers := "styled", textSpan := ⟨5, 7⟩,
    displayParts := [], documentation := [], tags := [] }

/-- Engines whose classifier reports "css" and whose styled-template
service returns the sentinel record. -/
def cssEngines : Engines :=
  { lang := fun _ _ => "css"
    htmlDoComplete := fun _ _ => none
    cssDoComplete := fun _ _ => none
    htmlDoHover := fun _ _ => none
    styledQuickInfo := fun _ _ => some sentinelQuickInfo
    format := fun _ r _ => [{ range := r, newText := "" }] }

/-- Witness for C9 at concrete inputs: a "css" position returns exactly
what the styled-template service returned, untranslated. -/
theorem quickinfo_never_css_cleanup_witness :
    getQuickInfoAtPosition cssEngines ctxA ⟨0, 0⟩
      = some sentinelQuickInfo :=
  (quickinfo_never_css_cleanup cssEngines ctxA ⟨0, 0⟩).1 rfl
